import Mathlib

/-!
Verification development for the Passive-Aggressive time-step classifier
(`src/prediction/predictor_model.py`).

The embedding below follows the source closely:

* a raw input tensor of shape (N, T, D) is a `List (List (List ℚ))`
  (N windows, each a list of T rows, each row a list of D columns);
* `getXAndYTrain` / `getXAndYInfer` embed `TimeStepClassifier._get_X_and_y`
  for `is_train = True` / `False`;
* `collectPairs`, `aggregateTail` and `codeAggregate` embed the aggregation
  loop of `TimeStepClassifier.predict` (the `prob_dict` accumulation, the
  padding filter, `sorted`, mean and `np.vstack`);
* `sigmoid`, `binaryDecode`, `rowMax`, `expRow`, `softmaxRow`, `softmax`
  embed the decision-score decoding helpers over the reals;
* `TimeStepClassifierState`, `fitF`, `saveF`, `evaluateF`, `predictF` embed
  the facade; the underlying sklearn multi-output classifier is an external
  black box and is represented by `MOClf` together with abstract function
  parameters for its fit / predict / decision outputs.

Probability vectors are kept polymorphic in a type `K` equipped with the
operations numpy uses (`+`, `/`, casts from ℕ); theorems instantiate `K`
at ℝ, ℚ or ℤ as convenient, which is sound because the aggregation logic
never inspects the numeric values.

Raised Python exceptions are modelled with `Except String`; the messages
mirror the source's messages.
-/

/-- Raw 3-D input tensor: N windows, T time steps per window, D columns per
step. Column 0 is the series id, column 1 the step id. -/
abbrev Tensor := List (List (List ℚ))

/-- The size of axis 1 of the tensor (`T` in `N, T, D = data.shape`). -/
def dim1 (data : Tensor) : ℕ := (data.headD []).length

/-- Rectangularity of a tensor: it has shape (N, T, D). -/
def rect (data : Tensor) (N T D : ℕ) : Prop :=
  data.length = N ∧ ∀ w ∈ data, w.length = T ∧ ∀ r ∈ w, r.length = D

/-- Message of the `ValueError` raised by `_get_X_and_y` in train mode. -/
def trainShapeMsg (e t : ℕ) : String :=
  "Training data expected to have " ++ toString e ++
    " length on axis 1. Found length " ++ toString t

/-- Message of the `ValueError` raised by `_get_X_and_y` in inference mode. -/
def inferShapeMsg (e t : ℕ) : String :=
  "Inference data length expected to be >= " ++ toString e ++
    " on axis 1. Found length " ++ toString t

/-- Cast of a rational to an integer truncating toward zero, as numpy's
`astype(int)` does for the label column. -/
def truncZ (x : ℚ) : ℤ := if 0 ≤ x then x.floor else x.ceil

/-- Training feature matrix: `data[:, :, 2:-1].reshape(N, -1)`. -/
def trainX (data : Tensor) : List (List ℚ) :=
  data.map (fun w => (w.map (fun r => (r.drop 2).dropLast)).flatten)

/-- Training label matrix: `data[:, :, -1].astype(int)`. -/
def trainY (data : Tensor) : List (List ℤ) :=
  data.map (fun w => w.map (fun r => truncZ (r.getLastD 0)))

/-- Inference feature matrix: `data[:, :, 2:].reshape(N, -1)`. -/
def inferX (data : Tensor) : List (List ℚ) :=
  data.map (fun w => (w.map (fun r => r.drop 2)).flatten)

/-- Inference identifier pairs: `data[:, :, 0:2]`, each step's
(series id, step id). -/
def inferIds (data : Tensor) : List (List (ℚ × ℚ)) :=
  data.map (fun w => w.map (fun r => (r.getD 0 0, r.getD 1 0)))

/-- Embeds `_get_X_and_y(data, is_train=True)` (lines 85-93): requires
`T == encode_len`, else raises; returns the flattened feature matrix and the
integer label matrix. The embedding is a pure function of the tensor, as the
source is (numpy slicing does not mutate its input). -/
def getXAndYTrain (encodeLen : ℕ) (data : Tensor) :
    Except String (List (List ℚ) × List (List ℤ)) :=
  if dim1 data ≠ encodeLen then Except.error (trainShapeMsg encodeLen (dim1 data))
  else Except.ok (trainX data, trainY data)

/-- Embeds `_get_X_and_y(data, is_train=False)` (lines 94-104): requires
`T >= encode_len`, else raises; returns the flattened feature matrix and the
(series id, step id) pairs. -/
def getXAndYInfer (encodeLen : ℕ) (data : Tensor) :
    Except String (List (List ℚ) × List (List (ℚ × ℚ))) :=
  if dim1 data < encodeLen then Except.error (inferShapeMsg encodeLen (dim1 data))
  else Except.ok (inferX data, inferIds data)

/-- Message of the numpy `IndexError` raised by an out-of-range integer index. -/
def ixMsg : String := "IndexError: index out of bounds"

/-- Message of the `ValueError` raised by `np.vstack` on an empty sequence. -/
def vstackMsg : String := "ValueError: need at least one array to concatenate"

/-- Turns an optional lookup into the exception a numpy integer index raises. -/
def liftIx {α : Type} (msg : String) : Option α → Except String α
  | none => Except.error msg
  | some a => Except.ok a

/-- Embeds the accumulation loop of `predict` (lines 126-133), keeping the
(key, probability-vector) pairs in loop order:

for `index` over the first axis of `preds` (the per-step outputs), the code
reads `series_id = window_ids[index][0][0]`, and for `step_index` over the
second axis (the windows) it reads `step_id = window_ids[index][step_index][1]`
and appends `preds[index][step_index]` under `(series_id, step_id)`. Note that
`window_ids` has shape (N, T, 2) while `index` ranges over T and `step_index`
over N, so each lookup can raise `IndexError`. -/
def collectPairs {K : Type} (preds : List (List (List K)))
    (ids : List (List (ℚ × ℚ))) : Except String (List ((ℚ × ℚ) × List K)) := do
  let rows ← preds.enum.mapM (fun tp => do
    let idrow ← liftIx ixMsg ids[tp.1]?
    let first ← liftIx ixMsg idrow[0]?
    tp.2.enum.mapM (fun np => do
      let ent ← liftIx ixMsg idrow[np.1]?
      pure (((first.1, ent.2) : ℚ × ℚ), np.2)))
  pure rows.flatten

/-- Python tuple comparison on (series id, step id) keys. -/
def keyLe (a b : ℚ × ℚ) : Prop := a.1 < b.1 ∨ (a.1 = b.1 ∧ a.2 ≤ b.2)

/-- Strict lexicographic comparison on (series id, step id) keys. -/
def keyLt (a b : ℚ × ℚ) : Prop := a.1 < b.1 ∨ (a.1 = b.1 ∧ a.2 < b.2)

instance : DecidableRel keyLe := fun a b =>
  inferInstanceAs (Decidable (a.1 < b.1 ∨ (a.1 = b.1 ∧ a.2 ≤ b.2)))

instance : DecidableRel keyLt := fun a b =>
  inferInstanceAs (Decidable (a.1 < b.1 ∨ (a.1 = b.1 ∧ a.2 < b.2)))

instance : IsTotal (ℚ × ℚ) keyLe := by
  constructor
  intro a b
  rcases lt_trichotomy a.1 b.1 with h | h | h
  · exact Or.inl (Or.inl h)
  · rcases le_total a.2 b.2 with h2 | h2
    · exact Or.inl (Or.inr ⟨h, h2⟩)
    · exact Or.inr (Or.inr ⟨h.symm, h2⟩)
  · exact Or.inr (Or.inl h)

instance : IsTrans (ℚ × ℚ) keyLe := by
  constructor
  intro a b c hab hbc
  rcases hab with h1 | ⟨h1, h2⟩ <;> rcases hbc with h3 | ⟨h3, h4⟩
  · exact Or.inl (lt_trans h1 h3)
  · exact Or.inl (by rw [← h3]; exact h1)
  · exact Or.inl (by rw [h1]; exact h3)
  · exact Or.inr ⟨h1.trans h3, le_trans h2 h4⟩

/-- When a weak comparison holds between distinct keys, the strict one holds. -/
theorem keyLt_of_keyLe_of_ne {a b : ℚ × ℚ} (h : keyLe a b) (hne : a ≠ b) :
    keyLt a b := by
  rcases h with h1 | ⟨h1, h2⟩
  · exact Or.inl h1
  · refine Or.inr ⟨h1, lt_of_le_of_ne h2 ?_⟩
    intro h3
    exact hne (Prod.ext h1 h3)

/-- Element-wise mean of a list of equal-length vectors, as
`np.mean(np.array(v), axis=0)` computes it: element-wise sum divided by the
number of vectors. -/
def meanVec {K : Type} [Add K] [Div K] [NatCast K] : List (List K) → List K
  | [] => []
  | v :: rest =>
    (rest.foldl (fun a b => List.zipWith (fun x y => x + y) a b) v).map
      (fun s => s / ((rest.length + 1 : ℕ) : K))

/-- The distinct accumulated keys whose step id differs from the padding
value (the dict-comprehension filter on line 138). -/
def keptKeys {K : Type} (padding : ℚ) (pairs : List ((ℚ × ℚ) × List K)) :
    List (ℚ × ℚ) :=
  ((pairs.map Prod.fst).dedup).filter (fun k => decide (k.2 ≠ padding))

/-- The kept keys in the ascending tuple order produced by `sorted` on
line 141. -/
def sortedKeysOf {K : Type} (padding : ℚ) (pairs : List ((ℚ × ℚ) × List K)) :
    List (ℚ × ℚ) :=
  List.insertionSort keyLe (keptKeys padding pairs)

/-- Embeds lines 135-143 of `predict`: filter out padding keys, average each
key's accumulated vectors, sort the keys, and stack the rows (`np.vstack`
raises when no row remains). The output keeps each row's key next to it so
that theorems can speak about the row order. -/
def aggregateTail {K : Type} [Add K] [Div K] [NatCast K] (padding : ℚ)
    (pairs : List ((ℚ × ℚ) × List K)) :
    Except String (List ((ℚ × ℚ) × List K)) :=
  if (sortedKeysOf padding pairs).isEmpty then Except.error vstackMsg
  else Except.ok ((sortedKeysOf padding pairs).map (fun k =>
    (k, meanVec ((pairs.filter (fun q => decide (q.1 = k))).map Prod.snd))))

/-- Embeds the whole aggregation stage of `predict` (lines 126-143), exactly
as the source indexes it. -/
def codeAggregate {K : Type} [Add K] [Div K] [NatCast K] (padding : ℚ)
    (preds : List (List (List K))) (ids : List (List (ℚ × ℚ))) :
    Except String (List ((ℚ × ℚ) × List K)) :=
  match collectPairs preds ids with
  | Except.error m => Except.error m
  | Except.ok pairs => aggregateTail padding pairs

/-- Follows the spec's words (section 4.3) for the accumulation, to compare
with `collectPairs`: for each window `n` and each step-output index `t`,
accumulate `preds[t][n]` under the key `(ids[n][t][0], ids[n][t][1])`. -/
def specCollect {K : Type} (preds : List (List (List K)))
    (ids : List (List (ℚ × ℚ))) : Except String (List ((ℚ × ℚ) × List K)) := do
  let rows ← ids.enum.mapM (fun np =>
    np.2.enum.mapM (fun tp => do
      let predRow ← liftIx ixMsg preds[tp.1]?
      let v ← liftIx ixMsg predRow[np.1]?
      pure ((tp.2 : ℚ × ℚ), v)))
  pure rows.flatten

/-- Follows the spec's words (section 4.3) for the whole aggregation: the
spec-worded accumulation followed by the same mean / filter / sort stage. -/
def specAggregate {K : Type} [Add K] [Div K] [NatCast K] (padding : ℚ)
    (preds : List (List (List K))) (ids : List (List (ℚ × ℚ))) :
    Except String (List ((ℚ × ℚ) × List K)) :=
  match specCollect preds ids with
  | Except.error m => Except.error m
  | Except.ok pairs => aggregateTail padding pairs

/-- Embeds the `sigmoid` helper (line 28-29) over the reals. -/
noncomputable def sigmoid (x : ℝ) : ℝ := 1 / (1 + Real.exp (-x))

/-- Embeds the binary decoding lambda of `predict` (line 119):
`np.column_stack((1 - sigmoid(x), sigmoid(x)))`. -/
noncomputable def binaryDecode (xs : List ℝ) : List (List ℝ) :=
  xs.map (fun v => [1 - sigmoid v, sigmoid v])

/-- Maximum of one row, as `np.max(x, axis=1)` computes it per row. -/
def rowMax : List ℝ → ℝ
  | [] => 0
  | x :: xs => xs.foldl max x

/-- One row of `np.exp(x - np.max(x, axis=1, keepdims=True))`. -/
noncomputable def expRow (xs : List ℝ) : List ℝ :=
  xs.map (fun v => Real.exp (v - rowMax xs))

/-- One row of the `softmax` helper (lines 24-26): max-stabilized
exponentials divided by their row sum. -/
noncomputable def softmaxRow (xs : List ℝ) : List ℝ :=
  (expRow xs).map (fun v => v / (expRow xs).sum)

/-- Embeds the `softmax` helper (lines 24-26), acting row-wise on a matrix. -/
noncomputable def softmax (m : List (List ℝ)) : List (List ℝ) :=
  m.map softmaxRow

/-- Model of the external sklearn `MultiOutputClassifier` instance owned by
the facade. The spec treats it as a black box; all the claims need is whether
it has been fitted (sklearn's `check_is_fitted` guard) and, when it has, the
training matrices it was fitted on. Its actual predictions stay abstract and
are supplied as function parameters to the facade operations. -/
structure MOClf where
  fittedWith : Option (List (List ℚ) × List (List ℤ))
deriving DecidableEq

/-- Message of sklearn's `NotFittedError` raised by the facade's `save`. -/
def notFittedMsg : String := "NotFittedError: Model is not fitted yet."

/-- Message of the `NotFittedError` that sklearn's estimator raises when
`predict` is called before `fit` (its `check_is_fitted` guard). -/
def clfNotFittedMsg : String :=
  "NotFittedError: This MultiOutputClassifier instance is not fitted yet"

/-- Embeds the state of a `TimeStepClassifier` facade: the constructor
arguments (line 59-65) plus the owned classifier and the trained flag. The
number of target classes stands for `len(self.data_schema.target_classes)`. -/
structure TimeStepClassifierState where
  encodeLen : ℕ
  paddingValue : ℚ
  C : ℚ
  numClasses : ℕ
  clf : MOClf
  isTrained : Bool
deriving DecidableEq

/-- Embeds `TimeStepClassifier.fit` (lines 106-110). The underlying
`self.model.fit` call is the external black box `clfFit`. The result pairs
the call's outcome with the facade state after the call: extraction and the
underlying fit run before `self._is_trained = True`, so an exception in
either leaves the state untouched (sklearn's fit publishes its estimators
only on success). -/
def fitF (clfFit : MOClf → List (List ℚ) → List (List ℤ) → Except String MOClf)
    (st : TimeStepClassifierState) (data : Tensor) :
    Except String Unit × TimeStepClassifierState :=
  match getXAndYTrain st.encodeLen data with
  | Except.error m => (Except.error m, st)
  | Except.ok (x, y) =>
    match clfFit st.clf x y with
    | Except.error m => (Except.error m, st)
    | Except.ok c =>
      (Except.ok (), { st with clf := c, isTrained := true })

/-- Embeds `TimeStepClassifier.save` (lines 156-164): raises `NotFittedError`
when the trained flag is down, otherwise dumps the object (persistence itself
is out of scope and modelled as plain success). -/
def saveF (st : TimeStepClassifierState) : Except String Unit :=
  if st.isTrained then Except.ok () else Except.error notFittedMsg

/-- sklearn's weighted-average F1 score over flattened labels: per-class F1
weighted by the class's support in the true labels (0 when a class's
precision-recall denominator is 0). -/
def f1ForClass (yTrue yPred : List ℤ) (c : ℤ) : ℚ :=
  let tp := ((yTrue.zip yPred).filter (fun p => decide (p.1 = c ∧ p.2 = c))).length
  let fp := ((yTrue.zip yPred).filter (fun p => decide (p.1 ≠ c ∧ p.2 = c))).length
  let fn := ((yTrue.zip yPred).filter (fun p => decide (p.1 = c ∧ p.2 ≠ c))).length
  if 2 * tp + fp + fn = 0 then 0 else (2 * tp : ℚ) / ((2 * tp + fp + fn : ℕ) : ℚ)

/-- sklearn's `f1_score(y_true, y_pred, average="weighted")`. -/
def f1Weighted (yTrue yPred : List ℤ) : ℚ :=
  if yTrue.length = 0 then 0
  else (((yTrue ++ yPred).dedup).map
    (fun c => ((yTrue.count c : ℕ) : ℚ) * f1ForClass yTrue yPred c)).sum /
    ((yTrue.length : ℕ) : ℚ)

/-- Embeds `TimeStepClassifier.evaluate` (lines 145-154). The underlying
`self.model.predict` is `predFn` applied to the data the classifier was
fitted with; on an unfitted classifier sklearn raises `NotFittedError`.
The facade's own `if self.model is not None` guard is dead code (the model is
built in the constructor and never None), so its `else` branch is
unreachable and does not appear here. -/
def evaluateF
    (predFn : List (List ℚ) × List (List ℤ) → List (List ℚ) → List (List ℤ))
    (st : TimeStepClassifierState) (data : Tensor) : Except String ℚ :=
  match getXAndYTrain st.encodeLen data with
  | Except.error m => Except.error m
  | Except.ok (x, y) =>
    match st.clf.fittedWith with
    | none => Except.error clfNotFittedMsg
    | some tr => Except.ok (f1Weighted y.flatten ((predFn tr x).flatten))

/-- Embeds `TimeStepClassifier.predict` (lines 112-143). `numEstimators` is
the length of `self.model.estimators_` and `stepProbs i x` stands for the
decoded probability rows `helper(estimator_i.decision_function(X))`, both
properties of the external fitted classifier; `preds` rows beyond the
estimator count keep the `np.zeros` initialization. The decoded rows feed
the aggregation stage exactly as the source does. -/
def predictF {K : Type} [Add K] [Div K] [NatCast K] [Zero K]
    (numEstimators : ℕ) (stepProbs : ℕ → List (List ℚ) → List (List K))
    (st : TimeStepClassifierState) (data : Tensor) :
    Except String (List ((ℚ × ℚ) × List K)) :=
  match getXAndYInfer st.encodeLen data with
  | Except.error m => Except.error m
  | Except.ok (x, ids) =>
    let preds := (List.range (dim1 data)).map (fun i =>
      if i < numEstimators then stepProbs i x
      else List.replicate x.length (List.replicate st.numClasses (0 : K)))
    codeAggregate st.paddingValue preds ids

/-- Filtering a list by a predicate false on all its members gives `[]`. -/
theorem keptKeys_eq_nil {K : Type} (padding : ℚ)
    (pairs : List ((ℚ × ℚ) × List K))
    (hall : ∀ q ∈ pairs, q.1.2 = padding) : keptKeys padding pairs = [] := by
  unfold keptKeys
  refine List.filter_eq_nil_iff.2 ?_
  intro k hk
  rcases List.mem_map.1 (List.mem_dedup.1 hk) with ⟨q, hq, rfl⟩
  simp [hall q hq]

/-- C1: the claim states that `preds[t][n]` is accumulated under the key
`(ids[n][t][0], ids[n][t][1])`. The code instead enumerates `preds` (whose
first axis is the per-step outputs) and indexes `window_ids` with that step
index as if it were a window index, keying `preds[t][n]` under
`(ids[t][0][0], ids[t][n][1])`. On a concrete two-window, two-step input
whose windows belong to two different series (so all steps of one window
share one series id, as the claim's precondition requires), the code's
aggregation and the claimed aggregation produce different matrices: the
code pairs key (1, 11) with `preds[0][1]` where the claim demands
`preds[1][0]`. -/
theorem C1_accumulation_key_transposed :
    codeAggregate (K := ℤ) 99 [[[1, 0], [0, 1]], [[4, 5], [8, 9]]]
      [[(1, 10), (1, 11)], [(2, 20), (2, 21)]] =
      Except.ok [((1, 10), [1, 0]), ((1, 11), [0, 1]),
        ((2, 20), [4, 5]), ((2, 21), [8, 9])] ∧
    specAggregate (K := ℤ) 99 [[[1, 0], [0, 1]], [[4, 5], [8, 9]]]
      [[(1, 10), (1, 11)], [(2, 20), (2, 21)]] =
      Except.ok [((1, 10), [1, 0]), ((1, 11), [4, 5]),
        ((2, 20), [0, 1]), ((2, 21), [8, 9])] ∧
    codeAggregate (K := ℤ) 99 [[[1, 0], [0, 1]], [[4, 5], [8, 9]]]
      [[(1, 10), (1, 11)], [(2, 20), (2, 21)]] ≠
    specAggregate (K := ℤ) 99 [[[1, 0], [0, 1]], [[4, 5], [8, 9]]]
      [[(1, 10), (1, 11)], [(2, 20), (2, 21)]] := by
  refine ⟨rfl, rfl, ?_⟩
  intro h
  rw [(rfl : codeAggregate (K := ℤ) 99 [[[1, 0], [0, 1]], [[4, 5], [8, 9]]]
      [[(1, 10), (1, 11)], [(2, 20), (2, 21)]] =
      Except.ok [((1, 10), [1, 0]), ((1, 11), [0, 1]),
        ((2, 20), [4, 5]), ((2, 21), [8, 9])])] at h
  rw [(rfl : specAggregate (K := ℤ) 99 [[[1, 0], [0, 1]], [[4, 5], [8, 9]]]
      [[(1, 10), (1, 11)], [(2, 20), (2, 21)]] =
      Except.ok [((1, 10), [1, 0]), ((1, 11), [4, 5]),
        ((2, 20), [0, 1]), ((2, 21), [8, 9])])] at h
  have h2 := Except.ok.inj h
  exact absurd h2 (by decide)

/-- C2: whenever the aggregation stage of `predict` returns a matrix, its
rows are in strictly ascending (series id, step id) lexicographic order with
no duplicate key, there is exactly one row for each distinct accumulated key
whose step id differs from the padding value, and each row is the
element-wise mean of the vectors accumulated under its key. -/
theorem C2_rows_sorted_unique_nonpadding {K : Type} [Add K] [Div K] [NatCast K]
    (padding : ℚ) (preds : List (List (List K))) (ids : List (List (ℚ × ℚ)))
    (pairs out : List ((ℚ × ℚ) × List K))
    (hc : collectPairs preds ids = Except.ok pairs)
    (h : codeAggregate padding preds ids = Except.ok out) :
    List.Chain' keyLt (out.map Prod.fst) ∧
    (out.map Prod.fst).Nodup ∧
    (∀ k : ℚ × ℚ, k ∈ out.map Prod.fst ↔
      k ∈ pairs.map Prod.fst ∧ k.2 ≠ padding) ∧
    ∀ e ∈ out,
      e.2 = meanVec ((pairs.filter (fun q => decide (q.1 = e.1))).map Prod.snd) := by
  have h' : aggregateTail padding pairs = Except.ok out := by
    unfold codeAggregate at h
    rw [hc] at h
    exact h
  unfold aggregateTail at h'
  by_cases hemp : (sortedKeysOf padding pairs).isEmpty
  · rw [if_pos hemp] at h'
    exact Except.noConfusion h'
  · rw [if_neg hemp] at h'
    have hout := Except.ok.inj h'
    subst hout
    have hkeys : ((sortedKeysOf padding pairs).map (fun k =>
        (k, meanVec ((pairs.filter (fun q => decide (q.1 = k))).map Prod.snd)))).map
        Prod.fst = sortedKeysOf padding pairs := by
      rw [List.map_map]
      exact List.map_id _
    have hperm : (sortedKeysOf padding pairs).Perm (keptKeys padding pairs) :=
      List.perm_insertionSort _ _
    have hkeptnd : (keptKeys padding pairs).Nodup :=
      List.Nodup.filter _ (List.nodup_dedup _)
    have hnd : (sortedKeysOf padding pairs).Nodup := hperm.symm.nodup hkeptnd
    have hsorted : List.Sorted keyLe (sortedKeysOf padding pairs) :=
      List.sorted_insertionSort _ _
    have hpw : List.Pairwise keyLt (sortedKeysOf padding pairs) :=
      (List.Pairwise.and hsorted hnd).imp
        (fun hab => keyLt_of_keyLe_of_ne hab.1 hab.2)
    refine ⟨?_, ?_, ?_, ?_⟩
    · rw [hkeys]
      exact hpw.chain'
    · rw [hkeys]
      exact hnd
    · intro k
      rw [hkeys, hperm.mem_iff]
      simp [keptKeys, List.mem_filter, List.mem_dedup]
    · intro e he
      rcases List.mem_map.1 he with ⟨k, _, rfl⟩
      rfl

/-- Witness for C2 at a concrete input: two windows of the same series with
an overlapping step 11 (whose two vectors average to `[3, 6]`) and one
padding step 99 that is dropped. -/
theorem C2_witness :
    collectPairs (K := ℤ) [[[0, 1], [4, 5]], [[2, 7], [8, 9]]]
      [[(1, 10), (1, 11)], [(1, 11), (1, 99)]] =
      Except.ok [((1, 10), [0, 1]), ((1, 11), [4, 5]),
        ((1, 11), [2, 7]), ((1, 99), [8, 9])] ∧
    codeAggregate (K := ℤ) 99 [[[0, 1], [4, 5]], [[2, 7], [8, 9]]]
      [[(1, 10), (1, 11)], [(1, 11), (1, 99)]] =
      Except.ok [((1, 10), [0, 1]), ((1, 11), [3, 6])] ∧
    (List.Chain' keyLt (([((1, 10), [0, 1]), ((1, 11), [3, 6])] :
        List ((ℚ × ℚ) × List ℤ)).map Prod.fst) ∧
      (([((1, 10), [0, 1]), ((1, 11), [3, 6])] :
        List ((ℚ × ℚ) × List ℤ)).map Prod.fst).Nodup ∧
      (∀ k : ℚ × ℚ, k ∈ ([((1, 10), [0, 1]), ((1, 11), [3, 6])] :
          List ((ℚ × ℚ) × List ℤ)).map Prod.fst ↔
        k ∈ ([((1, 10), [0, 1]), ((1, 11), [4, 5]),
          ((1, 11), [2, 7]), ((1, 99), [8, 9])] :
          List ((ℚ × ℚ) × List ℤ)).map Prod.fst ∧ k.2 ≠ 99) ∧
      ∀ e ∈ ([((1, 10), [0, 1]), ((1, 11), [3, 6])] :
          List ((ℚ × ℚ) × List ℤ)),
        e.2 = meanVec ((([((1, 10), [0, 1]), ((1, 11), [4, 5]),
          ((1, 11), [2, 7]), ((1, 99), [8, 9])] :
          List ((ℚ × ℚ) × List ℤ)).filter
            (fun q => decide (q.1 = e.1))).map Prod.snd)) :=
  ⟨rfl, rfl,
    C2_rows_sorted_unique_nonpadding (K := ℤ) 99
      [[[0, 1], [4, 5]], [[2, 7], [8, 9]]]
      [[(1, 10), (1, 11)], [(1, 11), (1, 99)]]
      [((1, 10), [0, 1]), ((1, 11), [4, 5]), ((1, 11), [2, 7]), ((1, 99), [8, 9])]
      [((1, 10), [0, 1]), ((1, 11), [3, 6])] rfl rfl⟩

/-- C8: the claim states that a single window with no overlap predicts, for
each non-padding step, exactly that step's decoded probability vector. The
spec-worded aggregation indeed returns the unaggregated vectors, but the
code raises `IndexError` on every single-window input with more than one
time step: its aggregation loop runs `window_ids[index]` with `index`
ranging over the time axis while `window_ids` has only N = 1 entries. -/
theorem C8_single_window_index_error :
    codeAggregate (K := ℤ) 99 [[[1, 0]], [[0, 1]]] [[(1, 10), (1, 11)]] =
      Except.error ixMsg ∧
    specAggregate (K := ℤ) 99 [[[1, 0]], [[0, 1]]] [[(1, 10), (1, 11)]] =
      Except.ok [((1, 10), [1, 0]), ((1, 11), [0, 1])] :=
  ⟨rfl, rfl⟩

/-- C10: when every accumulated key carries the padding step id, the filter
empties the dictionary and the `np.vstack` of zero rows raises, rather than
an empty 0-row matrix being returned. -/
theorem C10_all_padding_raises {K : Type} [Add K] [Div K] [NatCast K]
    (padding : ℚ) (preds : List (List (List K))) (ids : List (List (ℚ × ℚ)))
    (pairs : List ((ℚ × ℚ) × List K))
    (hc : collectPairs preds ids = Except.ok pairs)
    (hall : ∀ q ∈ pairs, q.1.2 = padding) :
    codeAggregate padding preds ids = Except.error vstackMsg := by
  unfold codeAggregate
  rw [hc]
  have hkept := keptKeys_eq_nil padding pairs hall
  simp [aggregateTail, sortedKeysOf, hkept]

/-- Witness for C10 at a concrete input: one window, one step, whose step id
equals the padding value 5. -/
theorem C10_witness :
    collectPairs (K := ℤ) [[[1, 0]]] [[(1, 5)]] =
      Except.ok [((1, 5), [1, 0])] ∧
    (∀ q ∈ [(((1 : ℚ), (5 : ℚ)), ([1, 0] : List ℤ))], q.1.2 = 5) ∧
    codeAggregate (K := ℤ) 5 [[[1, 0]]] [[(1, 5)]] = Except.error vstackMsg :=
  ⟨rfl, by decide, C10_all_padding_raises 5 _ _ _ rfl (by decide)⟩

/-- On a nonempty rectangular tensor, axis 1 has length T. -/
theorem rect_dim1 {data : Tensor} {N T D : ℕ} (h : rect data N T D)
    (hne : data ≠ []) : dim1 data = T := by
  cases data with
  | nil => exact absurd rfl hne
  | cons w ws => exact (h.2 w (List.mem_cons_self w ws)).1

/-- Flattening a map whose rows all have length c yields length `len * c`. -/
theorem length_flatten_of_const {α β : Type} (w : List α) (f : α → List β)
    (c : ℕ) (h : ∀ r ∈ w, (f r).length = c) :
    ((w.map f).flatten).length = w.length * c := by
  induction w with
  | nil => simp
  | cons r rs ih =>
    simp only [List.map_cons, List.flatten_cons, List.length_append,
      List.length_cons]
    rw [h r (List.mem_cons_self r rs),
      ih (fun a ha => h a (List.mem_cons_of_mem r ha))]
    ring

/-- C3: on a rectangular (N, T, D) tensor, train-mode extraction (when
T equals the encode length) returns exactly the feature slice
`tensor[:, :, 2:-1]` flattened to shape (N, T*(D-3)) together with the label
slice `tensor[:, :, -1]` cast to integers with shape (N, T); infer-mode
extraction (when T is at least the encode length) returns the feature slice
`tensor[:, :, 2:]` flattened to shape (N, T*(D-2)) together with the
identifier slice `tensor[:, :, 0:2]` of shape (N, T) of pairs. Both are pure
functions of the tensor. -/
theorem C3_extraction_slices_and_shapes (N T D e : ℕ) (data : Tensor)
    (hne : data ≠ []) (hrect : rect data N T D) (hD : 3 ≤ D) :
    (T = e →
      getXAndYTrain e data = Except.ok (trainX data, trainY data) ∧
      (trainX data).length = N ∧
      (∀ r ∈ trainX data, r.length = T * (D - 3)) ∧
      (trainY data).length = N ∧
      (∀ r ∈ trainY data, r.length = T)) ∧
    (e ≤ T →
      getXAndYInfer e data = Except.ok (inferX data, inferIds data) ∧
      (inferX data).length = N ∧
      (∀ r ∈ inferX data, r.length = T * (D - 2)) ∧
      (inferIds data).length = N ∧
      (∀ r ∈ inferIds data, r.length = T)) := by
  have hT : dim1 data = T := rect_dim1 hrect hne
  constructor
  · intro hTe
    refine ⟨by simp [getXAndYTrain, hT, hTe], by simp [trainX, hrect.1], ?_,
      by simp [trainY, hrect.1], ?_⟩
    · intro r hr
      rcases List.mem_map.1 hr with ⟨w, hw, rfl⟩
      have hw' := hrect.2 w hw
      rw [length_flatten_of_const w _ (D - 3) ?_, hw'.1]
      intro rr hrr
      have hrl : rr.length = D := hw'.2 rr hrr
      simp only [List.length_dropLast, List.length_drop, hrl]
      omega
    · intro r hr
      rcases List.mem_map.1 hr with ⟨w, hw, rfl⟩
      simp [(hrect.2 w hw).1]
  · intro hTe
    refine ⟨by simp [getXAndYInfer, hT, Nat.not_lt.2 hTe], by
      simp [inferX, hrect.1], ?_, by simp [inferIds, hrect.1], ?_⟩
    · intro r hr
      rcases List.mem_map.1 hr with ⟨w, hw, rfl⟩
      have hw' := hrect.2 w hw
      rw [length_flatten_of_const w _ (D - 2) ?_, hw'.1]
      intro rr hrr
      have hrl : rr.length = D := hw'.2 rr hrr
      simp only [List.length_drop, hrl]
    · intro r hr
      rcases List.mem_map.1 hr with ⟨w, hw, rfl⟩
      simp [(hrect.2 w hw).1]

/-- Witness for C3 at a concrete (1, 1, 4) tensor with encode length 1. -/
theorem C3_witness :
    (([[[7, 8, 9, 2]]] : Tensor) ≠ [] ∧ rect [[[7, 8, 9, 2]]] 1 1 4 ∧ 3 ≤ 4) ∧
    ((1 = 1 →
      getXAndYTrain 1 [[[7, 8, 9, 2]]] =
        Except.ok (trainX [[[7, 8, 9, 2]]], trainY [[[7, 8, 9, 2]]]) ∧
      (trainX [[[7, 8, 9, 2]]]).length = 1 ∧
      (∀ r ∈ trainX [[[7, 8, 9, 2]]], r.length = 1 * (4 - 3)) ∧
      (trainY [[[7, 8, 9, 2]]]).length = 1 ∧
      (∀ r ∈ trainY [[[7, 8, 9, 2]]], r.length = 1)) ∧
    (1 ≤ 1 →
      getXAndYInfer 1 [[[7, 8, 9, 2]]] =
        Except.ok (inferX [[[7, 8, 9, 2]]], inferIds [[[7, 8, 9, 2]]]) ∧
      (inferX [[[7, 8, 9, 2]]]).length = 1 ∧
      (∀ r ∈ inferX [[[7, 8, 9, 2]]], r.length = 1 * (4 - 2)) ∧
      (inferIds [[[7, 8, 9, 2]]]).length = 1 ∧
      (∀ r ∈ inferIds [[[7, 8, 9, 2]]], r.length = 1))) :=
  ⟨⟨by decide, by simp [rect], by decide⟩,
    C3_extraction_slices_and_shapes 1 1 4 1 [[[7, 8, 9, 2]]]
      (by decide) (by simp [rect]) (by decide)⟩

/-- C4: train-mode extraction fails exactly when the tensor's time dimension
differs from the encode length, and infer-mode extraction fails exactly when
it is below the encode length; in each case the error carries the expected
and found lengths in its message, `fit` and `predict` surface it directly
(before touching the underlying classifier, so no recovery happens), and a
failed `fit` leaves the facade state untouched. -/
theorem C4_shape_mismatch_iff (e : ℕ) (data : Tensor) :
    ((∃ m, getXAndYTrain e data = Except.error m) ↔ dim1 data ≠ e) ∧
    (dim1 data ≠ e →
      getXAndYTrain e data = Except.error (trainShapeMsg e (dim1 data))) ∧
    ((∃ m, getXAndYInfer e data = Except.error m) ↔ dim1 data < e) ∧
    (dim1 data < e →
      getXAndYInfer e data = Except.error (inferShapeMsg e (dim1 data))) ∧
    (∀ clfFit st, st.encodeLen = e → dim1 data ≠ e →
      fitF clfFit st data = (Except.error (trainShapeMsg e (dim1 data)), st)) ∧
    (∀ numEst sp st, st.encodeLen = e → dim1 data < e →
      predictF (K := ℚ) numEst sp st data =
        Except.error (inferShapeMsg e (dim1 data))) := by
  refine ⟨⟨?_, ?_⟩, ?_, ⟨?_, ?_⟩, ?_, ?_, ?_⟩
  · rintro ⟨m, hm⟩ hEq
    rw [getXAndYTrain, if_neg (by simp [hEq])] at hm
    exact Except.noConfusion hm
  · intro hne
    exact ⟨_, by rw [getXAndYTrain, if_pos hne]⟩
  · intro hne
    rw [getXAndYTrain, if_pos hne]
  · rintro ⟨m, hm⟩
    by_contra hlt
    rw [getXAndYInfer, if_neg hlt] at hm
    exact Except.noConfusion hm
  · intro hlt
    exact ⟨_, by rw [getXAndYInfer, if_pos hlt]⟩
  · intro hlt
    rw [getXAndYInfer, if_pos hlt]
  · intro clfFit st h1 h2
    have hErr : getXAndYTrain st.encodeLen data =
        Except.error (trainShapeMsg e (dim1 data)) := by
      rw [h1, getXAndYTrain, if_pos h2]
    simp [fitF, hErr]
  · intro numEst sp st h1 h2
    have hErr : getXAndYInfer st.encodeLen data =
        Except.error (inferShapeMsg e (dim1 data)) := by
      rw [h1, getXAndYInfer, if_pos h2]
    simp [predictF, hErr]

/-- Witness for C4 at encode length 2 and a (1, 1, 3) tensor. -/
theorem C4_witness :
    ((∃ m, getXAndYTrain 2 [[[1, 2, 3]]] = Except.error m) ↔
      dim1 [[[1, 2, 3]]] ≠ 2) ∧
    getXAndYTrain 2 [[[1, 2, 3]]] =
      Except.error (trainShapeMsg 2 (dim1 [[[1, 2, 3]]])) ∧
    ((∃ m, getXAndYInfer 2 [[[1, 2, 3]]] = Except.error m) ↔
      dim1 [[[1, 2, 3]]] < 2) ∧
    getXAndYInfer 2 [[[1, 2, 3]]] =
      Except.error (inferShapeMsg 2 (dim1 [[[1, 2, 3]]])) ∧
    fitF (fun c _ _ => Except.ok c)
      ⟨2, 0, 1, 2, ⟨none⟩, false⟩ [[[1, 2, 3]]] =
      (Except.error (trainShapeMsg 2 (dim1 [[[1, 2, 3]]])),
        ⟨2, 0, 1, 2, ⟨none⟩, false⟩) ∧
    predictF (K := ℚ) 0 (fun _ _ => [])
      ⟨2, 0, 1, 2, ⟨none⟩, false⟩ [[[1, 2, 3]]] =
      Except.error (inferShapeMsg 2 (dim1 [[[1, 2, 3]]])) := by
  have h := C4_shape_mismatch_iff 2 [[[1, 2, 3]]]
  exact ⟨h.1, h.2.1 (by decide), h.2.2.1, h.2.2.2.1 (by decide),
    h.2.2.2.2.1 _ _ rfl (by decide), h.2.2.2.2.2 _ _ _ rfl (by decide)⟩

/-- C5: on a facade whose fit has never completed (trained flag down and the
owned classifier unfitted), `save` raises `NotFittedError` from its own
guard, and `evaluate` — whose own `if self.model is not None` guard is dead
code — raises the `NotFittedError` of the underlying unfitted classifier on
every tensor that passes extraction; both errors surface directly. -/
theorem C5_untrained_save_evaluate_raise (st : TimeStepClassifierState)
    (h1 : st.isTrained = false) (h2 : st.clf.fittedWith = none) :
    saveF st = Except.error notFittedMsg ∧
    ∀ predFn data x y, getXAndYTrain st.encodeLen data = Except.ok (x, y) →
      evaluateF predFn st data = Except.error clfNotFittedMsg := by
  constructor
  · simp [saveF, h1]
  · intro predFn data x y hxy
    simp [evaluateF, hxy, h2]

/-- Witness for C5 on a freshly constructed facade and a shape-correct
training tensor. -/
theorem C5_witness :
    ((⟨1, 0, 1, 2, ⟨none⟩, false⟩ : TimeStepClassifierState).isTrained
        = false ∧
      (⟨1, 0, 1, 2, ⟨none⟩, false⟩ :
        TimeStepClassifierState).clf.fittedWith = none ∧
      getXAndYTrain 1 [[[1, 2, 3]]] = Except.ok ([[]], [[3]])) ∧
    saveF ⟨1, 0, 1, 2, ⟨none⟩, false⟩ = Except.error notFittedMsg ∧
    evaluateF (fun _ _ => []) ⟨1, 0, 1, 2, ⟨none⟩, false⟩ [[[1, 2, 3]]] =
      Except.error clfNotFittedMsg := by
  have h := C5_untrained_save_evaluate_raise
    ⟨1, 0, 1, 2, ⟨none⟩, false⟩ rfl rfl
  exact ⟨⟨rfl, rfl, rfl⟩, h.1, h.2 (fun _ _ => []) [[[1, 2, 3]]] [[]] [[3]] rfl⟩

/-- C9: when `fit` fails — in the extraction or in the underlying
classifier's fit — the facade's trained flag keeps its previous value
(the assignment `self._is_trained = True` runs only after both succeed), so
a facade that was untrained stays untrained and `save` still raises
`NotFittedError`. -/
theorem C9_failed_fit_keeps_untrained
    (clfFit : MOClf → List (List ℚ) → List (List ℤ) → Except String MOClf)
    (st : TimeStepClassifierState) (data : Tensor)
    (h : (fitF clfFit st data).1.isOk = false) :
    (fitF clfFit st data).2.isTrained = st.isTrained ∧
    (st.isTrained = false →
      saveF (fitF clfFit st data).2 = Except.error notFittedMsg) := by
  cases hx : getXAndYTrain st.encodeLen data with
  | error m =>
    constructor
    · simp [fitF, hx]
    · intro h1
      simp [fitF, hx, saveF, h1]
  | ok p =>
    obtain ⟨x, y⟩ := p
    cases hp : clfFit st.clf x y with
    | error m =>
      constructor
      · simp [fitF, hx, hp]
      · intro h1
        simp [fitF, hx, hp, saveF, h1]
    | ok c =>
      exfalso
      simp [fitF, hx, hp, Except.isOk, Except.toBool] at h

/-- Witness for C9: a shape-correct tensor with an underlying fit that
fails, starting from an untrained facade. -/
theorem C9_witness :
    ((fitF (fun _ _ _ => Except.error "FitError")
        ⟨1, 0, 1, 2, ⟨none⟩, false⟩ [[[1, 2, 3]]]).1.isOk = false ∧
      (⟨1, 0, 1, 2, ⟨none⟩, false⟩ : TimeStepClassifierState).isTrained
        = false) ∧
    (fitF (fun _ _ _ => Except.error "FitError")
        ⟨1, 0, 1, 2, ⟨none⟩, false⟩ [[[1, 2, 3]]]).2.isTrained
      = (⟨1, 0, 1, 2, ⟨none⟩, false⟩ : TimeStepClassifierState).isTrained ∧
    saveF (fitF (fun _ _ _ => Except.error "FitError")
        ⟨1, 0, 1, 2, ⟨none⟩, false⟩ [[[1, 2, 3]]]).2 =
      Except.error notFittedMsg := by
  have h := C9_failed_fit_keeps_untrained
    (fun _ _ _ => Except.error "FitError")
    ⟨1, 0, 1, 2, ⟨none⟩, false⟩ [[[1, 2, 3]]] rfl
  exact ⟨⟨rfl, rfl⟩, h.1, h.2 rfl⟩

/-- Summing a list divided pointwise by a constant divides the sum. -/
theorem sum_map_div (l : List ℝ) (c : ℝ) :
    (l.map (fun v => v / c)).sum = l.sum / c := by
  induction l with
  | nil => simp
  | cons x xs ih => simp [ih, add_div]

/-- Folding `max` over copies of the seed returns the seed. -/
theorem foldl_max_self (n : ℕ) (c : ℝ) :
    (List.replicate n c).foldl max c = c := by
  induction n with
  | zero => rfl
  | succ k ih =>
    rw [List.replicate_succ, List.foldl_cons, max_self]
    exact ih

/-- The row maximum of a constant row is that constant. -/
theorem rowMax_replicate (n : ℕ) (c : ℝ) :
    rowMax (List.replicate (n + 1) c) = c := by
  rw [List.replicate_succ]
  exact foldl_max_self n c

/-- Softmax of a constant row of length n + 1 is uniform. -/
theorem softmaxRow_replicate (n : ℕ) (c : ℝ) :
    softmaxRow (List.replicate (n + 1) c) =
      List.replicate (n + 1) (1 / ((n + 1 : ℕ) : ℝ)) := by
  have hexp : expRow (List.replicate (n + 1) c) = List.replicate (n + 1) 1 := by
    unfold expRow
    rw [rowMax_replicate, List.map_replicate, sub_self, Real.exp_zero]
  unfold softmaxRow
  rw [hexp, List.map_replicate, List.sum_replicate, nsmul_eq_mul, mul_one]

/-- C6: with two target classes, decoding maps each raw score x to the row
[1 - sigmoid x, sigmoid x] — the logistic transform gives P(class = 1) and
its complement gives P(class = 0) — stacked as one length-2 row per input
score, each row summing to 1; the score 0 decodes to [1/2, 1/2]. -/
theorem C6_binary_decode_sigmoid (xs : List ℝ) :
    binaryDecode xs = xs.map (fun v => [1 - sigmoid v, sigmoid v]) ∧
    (binaryDecode xs).length = xs.length ∧
    (∀ r ∈ binaryDecode xs, r.length = 2 ∧ r.sum = 1) ∧
    sigmoid 0 = 1 / 2 ∧
    binaryDecode [0] = [[1 / 2, 1 / 2]] := by
  have hs0 : sigmoid 0 = 1 / 2 := by
    unfold sigmoid
    rw [neg_zero, Real.exp_zero]
    norm_num
  refine ⟨rfl, by simp [binaryDecode], ?_, hs0, ?_⟩
  · intro r hr
    rcases List.mem_map.1 hr with ⟨v, _, rfl⟩
    refine ⟨rfl, ?_⟩
    simp [List.sum_cons]
  · rw [binaryDecode, List.map_cons, List.map_nil, hs0]
    norm_num

/-- Witness for C6 at the concrete score 0. -/
theorem C6_witness :
    (binaryDecode [(0 : ℝ)]).length = ([(0 : ℝ)]).length ∧
    binaryDecode [(0 : ℝ)] = [[1 / 2, 1 / 2]] :=
  ⟨(C6_binary_decode_sigmoid [0]).2.1, (C6_binary_decode_sigmoid [0]).2.2.2.2⟩

/-- C7: with more than two classes, each decoded row is the max-stabilized
exponential normalization of the score row; on every nonempty score row the
output sums to exactly 1 with all entries in [0, 1], and a row of identical
scores decodes to the uniform distribution. -/
theorem C7_softmax_distribution (xs : List ℝ) (h : xs ≠ []) :
    (softmaxRow xs).sum = 1 ∧
    (∀ p ∈ softmaxRow xs, 0 ≤ p ∧ p ≤ 1) ∧
    ∀ c : ℝ, softmaxRow (List.replicate xs.length c) =
      List.replicate xs.length (1 / (xs.length : ℝ)) := by
  have hpos : ∀ v ∈ expRow xs, 0 < v := by
    intro v hv
    rcases List.mem_map.1 hv with ⟨w, _, rfl⟩
    exact Real.exp_pos _
  have hne : expRow xs ≠ [] := by
    intro hh
    exact h (List.map_eq_nil_iff.1 hh)
  have hsum : 0 < (expRow xs).sum := List.sum_pos _ hpos hne
  refine ⟨?_, ?_, ?_⟩
  · unfold softmaxRow
    rw [sum_map_div, div_self hsum.ne']
  · intro p hp
    rcases List.mem_map.1 hp with ⟨v, hv, rfl⟩
    refine ⟨le_of_lt (div_pos (hpos v hv) hsum), ?_⟩
    exact (div_le_one hsum).2
      (List.single_le_sum (fun x hx => le_of_lt (hpos x hx)) v hv)
  · intro c
    obtain ⟨k, hk⟩ : ∃ k, xs.length = k + 1 := by
      cases xs with
      | nil => exact absurd rfl h
      | cons a as => exact ⟨as.length, rfl⟩
    rw [hk]
    exact softmaxRow_replicate k c

/-- Witness for C7 at the concrete uniform row [1, 1, 1] of the spec's
example `decode([[1, 1, 1]], 3)`. -/
theorem C7_witness :
    ([(1 : ℝ), 1, 1] ≠ []) ∧
    ((softmaxRow [(1 : ℝ), 1, 1]).sum = 1 ∧
      (∀ p ∈ softmaxRow [(1 : ℝ), 1, 1], 0 ≤ p ∧ p ≤ 1) ∧
      ∀ c : ℝ, softmaxRow (List.replicate ([(1 : ℝ), 1, 1]).length c) =
        List.replicate ([(1 : ℝ), 1, 1]).length
          (1 / (([(1 : ℝ), 1, 1]).length : ℝ))) :=
  ⟨by simp, C7_softmax_distribution [1, 1, 1] (by simp)⟩
